import Mathlib

/-!
Shallow embedding of the `sgx-insider-trading` repository (files
`src/pdf_parser.py` and `src/forms.py`) and proofs about it.

Conventions of the embedding:
* Python `str` is modelled as Lean `String`/`List Char` over its ASCII
  fragment (`str.isdecimal` becomes `Char.isDigit`, `str.lower` becomes
  ASCII lowering, `str.strip` strips the ASCII whitespace characters).
* Python `float` values produced by the builtin `float(...)` conversion are
  modelled exactly as rationals (`ℚ`); `round(x, 2)` is modelled as exact
  half-even rounding at two decimal places.
* Fallible Python code (statements that can raise `ValueError` or
  `AttributeError`) is modelled with `Except PyError`.
* The mutable `NotificationForm1` object is modelled as an explicit state
  record `Form1State`; each accessor method becomes a function from the
  state to a pair of result and updated state.
-/

namespace SGX

/-! ### ASCII string helpers mirroring the Python `str` methods used. -/

/-- `str.lower()` on the ASCII fragment. -/
def pyLower (s : String) : String :=
  String.mk (s.data.map Char.toLower)

/-- `str.replace(",", "")`. -/
def removeCommas (s : String) : String :=
  String.mk (s.data.filter (fun c => c ≠ ','))

/-- The ASCII whitespace characters stripped by Python `str.strip()`. -/
def isPySpace (c : Char) : Bool :=
  c = ' ' || c = '\t' || c = '\n' || c = '\r' || c = '\x0b' || c = '\x0c'

/-- `str.strip()` on the ASCII fragment. -/
def pyStrip (s : String) : String :=
  String.mk (((s.data.dropWhile isPySpace).reverse.dropWhile isPySpace).reverse)

/-- `big.startswith(pat)` on character lists. -/
def startsWithL : List Char → List Char → Bool
  | _, [] => true
  | [], _ :: _ => false
  | c :: cs, p :: ps => c = p && startsWithL cs ps

/-- `text.endswith(suf)`: `suf` is a suffix of `cs`. -/
def endsW (cs suf : List Char) : Bool :=
  startsWithL cs.reverse suf.reverse

/-! ### Python numeric-literal parsing (`int(...)` and `float(...)`).

Python numeric strings may contain single underscores strictly between
digits; a *digitpart* is a nonempty digit run with such underscores. -/

/-- No two consecutive underscores occur. -/
def noDoubleUS : List Char → Bool
  | '_' :: '_' :: _ => false
  | _ :: rest => noDoubleUS rest
  | [] => true

/-- A valid Python digitpart: nonempty, only digits and underscores, first
and last characters are digits, no doubled underscore (hence every
underscore sits between two digits). -/
def validDigitpart (cs : List Char) : Bool :=
  !cs.isEmpty && cs.all (fun c => c.isDigit || c = '_')
    && cs.head?.all Char.isDigit && cs.getLast?.all Char.isDigit && noDoubleUS cs

/-- Numeric value of a digitpart, skipping underscores. -/
def dpVal (cs : List Char) : ℕ :=
  cs.foldl (fun a c => if c = '_' then a else a * 10 + (c.toNat - 48)) 0

/-- Value of a digitpart, or `none` when the list is not a digitpart. -/
def digitpartVal? (cs : List Char) : Option ℕ :=
  if validDigitpart cs then some (dpVal cs) else none

/-- Split at the first character satisfying `p`; the second component is
`none` when no such character occurs. -/
def splitFirst (p : Char → Bool) : List Char → List Char × Option (List Char)
  | [] => ([], none)
  | c :: rest =>
    if p c then ([], some rest)
    else
      let (a, b) := splitFirst p rest
      (c :: a, b)

/-- Integer power of ten as a rational. -/
def qpow10 (e : ℤ) : ℚ :=
  if 0 ≤ e then ((10 : ℚ) ^ e.toNat) else 1 / ((10 : ℚ) ^ (-e).toNat)

/-- Python `int(s)`: optional surrounding whitespace, optional sign, then a
digitpart. Returns `none` where Python raises `ValueError`. -/
def pyInt? (s : String) : Option ℤ :=
  let cs := ((s.data.dropWhile isPySpace).reverse.dropWhile isPySpace).reverse
  match cs with
  | '+' :: r => (digitpartVal? r).map (fun n => (n : ℤ))
  | '-' :: r => (digitpartVal? r).map (fun n => -(n : ℤ))
  | r => (digitpartVal? r).map (fun n => (n : ℤ))

/-- Python `float(s)`, modelled exactly over `ℚ`, restricted to the grammar
reachable from its one call site in `money_str_to_float` (the argument
always begins and ends with a decimal digit, so signs, surrounding
whitespace, `inf` and `nan` cannot occur there): a mantissa
`digitpart ["." [digitpart]]` or `[digitpart] "." digitpart`, optionally
followed by `e`/`E`, an optional sign, and an exponent digitpart. Returns
`none` where Python raises `ValueError`. -/
def pyFloat? (s : String) : Option ℚ :=
  let (mant, expPart) := splitFirst (fun c => c = 'e' || c = 'E') s.data
  let expv : Option ℤ :=
    match expPart with
    | none => some 0
    | some ('+' :: r) => (digitpartVal? r).map (fun n => (n : ℤ))
    | some ('-' :: r) => (digitpartVal? r).map (fun n => -(n : ℤ))
    | some r => (digitpartVal? r).map (fun n => (n : ℤ))
  let mantv : Option ℚ :=
    let (ip, fpOpt) := splitFirst (fun c => c = '.') mant
    match fpOpt with
    | none => (digitpartVal? ip).map (fun n => (n : ℚ))
    | some fp =>
      if ip.isEmpty && fp.isEmpty then none
      else
        match (if ip.isEmpty then some 0 else digitpartVal? ip),
              (if fp.isEmpty then some (0 : ℚ)
               else (digitpartVal? fp).map
                 (fun n => (n : ℚ) / (10 : ℚ) ^ (fp.filter Char.isDigit).length)) with
        | some a, some b => some ((a : ℚ) + b)
        | _, _ => none
  match mantv, expv with
  | some m, some e => some (m * qpow10 e)
  | _, _ => none

/-- Round to the nearest integer, ties to the even integer (the rounding
Python's builtin `round` uses). -/
def roundHalfEven (q : ℚ) : ℤ :=
  let f := ⌊q⌋
  let r := q - (f : ℚ)
  if r < 1 / 2 then f
  else if (1 : ℚ) / 2 < r then f + 1
  else if f % 2 = 0 then f else f + 1

/-- Python `round(q, 2)` modelled exactly on `ℚ`. -/
def roundTo2 (q : ℚ) : ℚ :=
  ((roundHalfEven (q * 100) : ℤ) : ℚ) / 100

/-! ### `money_str_to_float` (src/forms.py lines 24-89). -/

/-- The normalisation step `text.lower().replace(",", "")`, as characters. -/
def moneyNorm (s : String) : List Char :=
  (removeCommas (pyLower s)).data

/-- Index of the last decimal digit (the backward scan of lines 64-67). -/
def lastDigitIdx (cs : List Char) : Option ℕ :=
  (List.findIdx? Char.isDigit cs.reverse).map (fun r => cs.length - 1 - r)

/-- Translation of `money_str_to_float`: lowercase and drop commas, locate
the first and last decimal digits (returning `default` when there is none),
pick a magnitude factor from the trailing characters, parse the digit span
with `float(...)` (returning `default` on `ValueError`), and return
`round(value * factor, 2)`. -/
def money_str_to_float (text : String) (default : Option ℚ) : Option ℚ :=
  let cs := moneyNorm text
  match List.findIdx? Char.isDigit cs, lastDigitIdx cs with
  | some i, some j =>
    let factor : ℚ :=
      if endsW cs ['k'] then 1000
      else if endsW cs ['m'] || endsW cs ['m', 'm'] then 1000000
      else if endsW cs ['b'] then 1000000000
      else if endsW cs ['t'] then 1000000000000
      else 1
    match pyFloat? (String.mk ((cs.take (j + 1)).drop i)) with
    | none => default
    | some v => some (roundTo2 (v * factor))
  | _, _ => default

/-! ### XML element trees and `xml_get_text` (src/pdf_parser.py lines 69-76).

`xml.etree.ElementTree.Element` is modelled as a rose tree with a tag, an
optional text and a list of children. `root.find(".//a/b")` is modelled by
`findPath`: ElementPath's `.//a` selector yields all proper descendants of
`root` with tag `a` in document (preorder) order, each following `/b` step
maps a selected list to the matching children, and `find` takes the first
element of the final selection. A namespaced tag such as `xfa:data`
resolved through the `_NAMESPACES` table is represented directly by its
expanded `{uri}name` form, exactly as ElementTree stores parsed tags. -/

mutual
inductive Element where
  | mk (tag : String) (text : Option String) (children : ElementList)
deriving Repr
/-- The children of an element, as an inlined list (isomorphic to
`List Element`; inlining keeps all tree recursion structural). -/
inductive ElementList where
  | nil
  | cons (e : Element) (rest : ElementList)
deriving Repr
end

def Element.tag : Element → String
  | .mk t _ _ => t

def Element.text : Element → Option String
  | .mk _ tx _ => tx

def Element.children : Element → ElementList
  | .mk _ _ cs => cs

def ElementList.toList : ElementList → List Element
  | .nil => []
  | .cons e r => e :: r.toList

/-- Builds the inlined child list from a list literal. -/
def elist : List Element → ElementList
  | [] => .nil
  | e :: r => .cons e (elist r)

mutual
/-- All elements with tag `t` inside `e` (proper descendants), preorder. -/
def matchDescE (t : String) : Element → List Element
  | .mk _ _ cs => matchDescL t cs
/-- All elements with tag `t` in the forest, in preorder: each root of the
forest (when it matches), then its matching descendants, then the rest. -/
def matchDescL (t : String) : ElementList → List Element
  | .nil => []
  | .cons e rest => (if e.tag = t then [e] else []) ++ matchDescE t e ++ matchDescL t rest
end

/-- The children of `e` whose tag is `t`, in order. -/
def childrenWithTag (t : String) (e : Element) : List Element :=
  e.children.toList.filter (fun c => c.tag = t)

/-- One `/t` path step applied to a selection. -/
def childSelect (t : String) (cur : List Element) : List Element :=
  cur.foldr (fun e acc => childrenWithTag t e ++ acc) []

/-- The remaining `/t` path steps applied in order. -/
def chainSelect : List String → List Element → List Element
  | [], cur => cur
  | t :: rest, cur => chainSelect rest (childSelect t cur)

/-- The full selection of `root.findall(".//t1/t2/.../tn")`. -/
def selectPath (root : Element) : List String → List Element
  | [] => []
  | t :: rest => chainSelect rest (matchDescL t root.children)

/-- `root.find(".//" + path)`: first selected element, if any. -/
def findPath (root : Element) (path : List String) : Option Element :=
  (selectPath root path).head?

/-- Splitting a slash-separated field path into its tags, as ElementPath
tokenisation does for the simple paths this program uses. -/
def splitSlashAux : List Char → List Char → List String
  | [], acc => [String.mk acc.reverse]
  | '/' :: rest, acc => String.mk acc.reverse :: splitSlashAux rest []
  | c :: rest, acc => splitSlashAux rest (c :: acc)

def splitSlash (s : String) : List String :=
  splitSlashAux s.data []

/-- Translation of `xml_get_text` (src/pdf_parser.py): the text of the
first descendant matching `.//field`, with the empty string both when no
element matches and when the matched element's text is `None`. -/
def xml_get_text (root : Element) (field : String) : String :=
  match findPath root (splitSlash field) with
  | none => ""
  | some e =>
    match e.text with
    | none => ""
    | some t => t

/-! ### `NotificationForm1` (src/forms.py).

The eight-member `SecurityType(str, Enum)` of src/forms.py lines 13-21.
It deliberately has no member named `partition`; line 266 of the source
nevertheless reads `SecurityType.partition`. -/

inductive SecurityType where
  | ORDINARY_SHARES
  | OTHER_SHARES
  | RIGHTS_OPTIONS_WARRANTS
  | DEBENTURES
  | RIGHTS_OPTIONS_OF_DEBENTURES
  | CONTRACTS
  | PARTICIPATORY_INTERESTS
  | OTHERS
deriving DecidableEq, Repr

/-- The Python exceptions the translated code can raise. -/
inductive PyError where
  | attributeError (msg : String)
  | valueError (msg : String)
deriving DecidableEq, Repr

/-- A holding map: Python dict from `SecurityType` to `int`, in insertion
order. The tag tables insert each key at most once. -/
abbrev HoldingMap := List (SecurityType × ℤ)

/-- The resolved path of `find(".//xfa:data/SFA289/Form1/Part2/T1", _NAMESPACES)`. -/
def part2Path : List String :=
  ["\x7bhttp://www.xfa.org/schema/xfa-data/1.0/\x7ddata", "SFA289", "Form1", "Part2", "T1"]

/-- The resolved path of `find(".//xfa:data/SFA289/Form1/Part3/Transaction", _NAMESPACES)`. -/
def part3Path : List String :=
  ["\x7bhttp://www.xfa.org/schema/xfa-data/1.0/\x7ddata", "SFA289", "Form1", "Part3", "Transaction"]

/-- The `tags` table of `__parse_part_2_securities` (lines 231-240). -/
def part2Tags : List (SecurityType × String) :=
  [(.ORDINARY_SHARES, "ord/num/tot"),
   (.OTHER_SHARES, "othx/tot"),
   (.RIGHTS_OPTIONS_WARRANTS, "opt/num/tot"),
   (.DEBENTURES, "deb/amt/tot"),
   (.RIGHTS_OPTIONS_OF_DEBENTURES, "rDeb/amt/tot"),
   (.CONTRACTS, "con/amt/tot"),
   (.PARTICIPATORY_INTERESTS, "opt/part/tot"),
   (.OTHERS, "opt/oth/tot")]

/-- The loop of lines 242-247: for each `(securityType, subPath)` pair in
order, read the sub-field text under `node`; skip it when empty, otherwise
insert `int(text.replace(",", ""))`, raising `ValueError` when the
comma-stripped text is not an integer. -/
def parseTags (node : Element) : List (SecurityType × String) → Except PyError HoldingMap
  | [] => .ok []
  | (st, sub) :: rest =>
    let text := xml_get_text node sub
    if text = "" then parseTags node rest
    else
      match pyInt? (removeCommas text) with
      | some n => (parseTags node rest).map (fun m => (st, n) :: m)
      | none => .error (.valueError (removeCommas text))

/-- Translation of `NotificationForm1.__parse_part_2_securities`
(lines 226-247): `None` when the Part2/T1 node is absent, otherwise the
holding map built by `parseTags`. -/
def parse_part_2_securities (root : Element) : Except PyError (Option HoldingMap) :=
  match findPath root part2Path with
  | none => .ok none
  | some node => (parseTags node part2Tags).map some

/-- Translation of `NotificationForm1.__parse_part_3_securities`
(lines 249-283). When the Part3/Transaction node is absent, the method
returns `(None, None)`. When it is present, Python next evaluates the
`tags` list literal of lines 259-268, whose seventh entry reads
`SecurityType.partition`; the enumeration has no member of that name, so
an `AttributeError` is raised there, before any security sub-field is
read. -/
def parse_part_3_securities (root : Element) :
    Except PyError (Option HoldingMap × Option HoldingMap) :=
  match findPath root part3Path with
  | none => .ok (none, none)
  | some _ => .error (.attributeError "partition")

/-- The state of a `NotificationForm1` object: the XML tree, the values
assigned by `__init__`, and one `Option`-valued cache slot per memoized
derived field (`None` in Python is the not-yet-computed marker). -/
structure Form1State where
  xml : Element
  insider_title : String
  is_notifying_raw : String
  issuer_name_c : Option String
  issuer_type_c : Option String
  insider_name_c : Option String
  trade_date_c : Option String
  securities_before_c : Option HoldingMap
  securities_after_c : Option HoldingMap
  amt_consideration_c : Option ℚ
deriving Repr

/-- Translation of `NotificationForm1.__init__` (lines 164-174, together
with `NotificationForm.__init__`, lines 99-108): all caches start as
`None`, the insider title is fixed, the appointment-time flag text is read
and stripped, and `__parse_part_3_securities` is invoked at once, its pair
being assigned to the two securities caches (any exception it raises
propagates out of construction). -/
def mkForm1 (xml : Element) : Except PyError Form1State :=
  match parse_part_3_securities xml with
  | .error e => .error e
  | .ok (sb, sa) =>
    .ok { xml := xml
          insider_title := "Director/CEO"
          is_notifying_raw := pyStrip (xml_get_text xml "Form1/Part1/notifyingAtApptTime")
          issuer_name_c := none
          issuer_type_c := none
          insider_name_c := none
          trade_date_c := none
          securities_before_c := sb
          securities_after_c := sa
          amt_consideration_c := none }

/-- `is_notifying_at_appt_time` (lines 176-181). -/
def is_notifying_at_appt_time (st : Form1State) : Bool :=
  st.is_notifying_raw == "1"

/-- `issuer_name` (lines 183-188). -/
def issuer_name (st : Form1State) : String × Form1State :=
  match st.issuer_name_c with
  | some v => (v, st)
  | none =>
    let v := xml_get_text st.xml "Form1/Part1/listedIssuer/name"
    (v, { st with issuer_name_c := some v })

/-- `issuer_type` (lines 190-203): the raw code is cached, the human label
is recomputed from it on every call. -/
def issuer_type (st : Form1State) : String × Form1State :=
  let p : String × Form1State :=
    match st.issuer_type_c with
    | some v => (v, st)
    | none =>
      let v := xml_get_text st.xml "Form1/Part1/listedIssuer/type"
      (v, { st with issuer_type_c := some v })
  let out :=
    if p.1 = "1" then "Company/Corporation"
    else if p.1 = "2" then "Registered/Recognised Business Trust"
    else if p.1 = "3" then "Real Estate Investment Trust"
    else p.1
  (out, p.2)

/-- `insider_name` (lines 205-208). -/
def insider_name (st : Form1State) : String × Form1State :=
  match st.insider_name_c with
  | some v => (v, st)
  | none =>
    let v := xml_get_text st.xml "Form1/Part1/nameDirector"
    (v, { st with insider_name_c := some v })

/-- `trade_date` (lines 210-224). -/
def trade_date (st : Form1State) : String × Form1State :=
  match st.trade_date_c with
  | some v => (v, st)
  | none =>
    let v :=
      if is_notifying_at_appt_time st then
        xml_get_text st.xml "Form1/Part2/dateAppointmentDirectorLI"
      else
        xml_get_text st.xml "Form1/Part3/Transaction/dateAquisition"
    (v, { st with trade_date_c := some v })

/-- `securities_before` (lines 285-294): on a cache miss the Part-II parse
runs only in appointment-time mode; otherwise the cache (still `None`) is
returned unchanged. -/
def securities_before (st : Form1State) : Except PyError (Option HoldingMap × Form1State) :=
  match st.securities_before_c with
  | some m => .ok (some m, st)
  | none =>
    if is_notifying_at_appt_time st then
      match parse_part_2_securities st.xml with
      | .error e => .error e
      | .ok r => .ok (r, { st with securities_before_c := r })
    else .ok (none, st)

/-- `securities_after` (lines 296-307): in appointment-time mode a cache
miss delegates to `securities_before` (without filling the after-cache). -/
def securities_after (st : Form1State) : Except PyError (Option HoldingMap × Form1State) :=
  match st.securities_after_c with
  | some m => .ok (some m, st)
  | none =>
    if is_notifying_at_appt_time st then securities_before st
    else .ok (none, st)

/-- `amt_consideration` (lines 309-325): fixed 0 in appointment-time mode,
otherwise the money field parsed with default 0 (so the parse never yields
`None` here). -/
def amt_consideration (st : Form1State) : ℚ × Form1State :=
  match st.amt_consideration_c with
  | some v => (v, st)
  | none =>
    if is_notifying_at_appt_time st then
      (0, { st with amt_consideration_c := some 0 })
    else
      let v := (money_str_to_float
        (xml_get_text st.xml "Form1/Part3/Transaction/amtConsideration") (some 0)).getD 0
      (v, { st with amt_consideration_c := some v })

/-! ### Helper lemmas. -/

attribute [local semireducible] Rat.mul Rat.add Rat.sub Rat.inv

theorem startsWithL_single (l : List Char) (c : Char) :
    startsWithL l [c] = true ↔ ∃ t, l = c :: t := by
  cases l with
  | nil => simp [startsWithL]
  | cons x xs => simp [startsWithL]

theorem endsW_single (cs : List Char) (c : Char) :
    endsW cs [c] = true ↔ ∃ t, cs.reverse = c :: t := by
  unfold endsW
  have : ([c] : List Char).reverse = [c] := rfl
  rw [this, startsWithL_single]

theorem endsW_pair_endsW_single (cs : List Char) (a b : Char)
    (h : endsW cs [a, b] = true) : endsW cs [b] = true := by
  unfold endsW at h ⊢
  have hrev : ([a, b] : List Char).reverse = [b, a] := rfl
  rw [hrev] at h
  cases hl : cs.reverse with
  | nil => rw [hl] at h; simp [startsWithL] at h
  | cons x xs =>
    rw [hl] at h
    simp only [startsWithL, Bool.and_eq_true, decide_eq_true_eq] at h
    simp [startsWithL, h.1]

theorem endsW_single_last {cs : List Char} {a b : Char}
    (ha : endsW cs [a] = true) (hb : endsW cs [b] = true) : a = b := by
  obtain ⟨t, ht⟩ := (endsW_single cs a).mp ha
  obtain ⟨u, hu⟩ := (endsW_single cs b).mp hb
  rw [ht] at hu
  exact (List.cons.injEq a t b u).mp hu |>.1

/-! ### Claim C2. -/

/-- Claim C2: for every input string whose normalised form (lowercased,
commas removed) contains a decimal digit, whose first-to-last-digit span
parses as a float value `v`, and whose normalised form ends with `k`, `m`,
`mm`, `b` or `t`, `money_str_to_float` returns `round(v * factor, 2)` with
factor 10^3, 10^6, 10^6, 10^9, 10^12 respectively — regardless of whether
the suffix letter is adjacent to the digit span and regardless of exponent
notation inside the span. -/
theorem c2_money_suffix_multiplier (s : String) (d : Option ℚ) (i j : ℕ) (v f : ℚ)
    (hi : List.findIdx? Char.isDigit (moneyNorm s) = some i)
    (hj : lastDigitIdx (moneyNorm s) = some j)
    (hv : pyFloat? (String.mk (((moneyNorm s).take (j + 1)).drop i)) = some v)
    (hf : (endsW (moneyNorm s) ['k'] = true ∧ f = 1000)
        ∨ ((endsW (moneyNorm s) ['m'] || endsW (moneyNorm s) ['m', 'm']) = true ∧ f = 1000000)
        ∨ (endsW (moneyNorm s) ['b'] = true ∧ f = 1000000000)
        ∨ (endsW (moneyNorm s) ['t'] = true ∧ f = 1000000000000)) :
    money_str_to_float s d = some (roundTo2 (v * f)) := by
  have hm' : (endsW (moneyNorm s) ['m'] || endsW (moneyNorm s) ['m', 'm']) = true →
      endsW (moneyNorm s) ['m'] = true := by
    intro h
    rcases Bool.or_eq_true _ _ |>.mp h with h1 | h2
    · exact h1
    · exact endsW_pair_endsW_single _ _ _ h2
  rcases hf with ⟨hk, rfl⟩ | ⟨hm, rfl⟩ | ⟨hb, rfl⟩ | ⟨ht, rfl⟩
  · simp only [money_str_to_float, hi, hj, hv, hk]
    simp
  · have h1 := hm' hm
    have hk : endsW (moneyNorm s) ['k'] = false := by
      by_contra hc
      have := endsW_single_last (Bool.of_not_eq_false hc) h1
      simp at this
    simp only [money_str_to_float, hi, hj, hv, hk, hm]
    simp
  · have hk : endsW (moneyNorm s) ['k'] = false := by
      by_contra hc
      have := endsW_single_last (Bool.of_not_eq_false hc) hb
      simp at this
    have hm1 : endsW (moneyNorm s) ['m'] = false := by
      by_contra hc
      have := endsW_single_last (Bool.of_not_eq_false hc) hb
      simp at this
    have hm2 : endsW (moneyNorm s) ['m', 'm'] = false := by
      by_contra hc
      have := endsW_single_last
        (endsW_pair_endsW_single _ _ _ (Bool.of_not_eq_false hc)) hb
      simp at this
    simp only [money_str_to_float, hi, hj, hv, hk, hm1, hm2, hb]
    simp
  · have hk : endsW (moneyNorm s) ['k'] = false := by
      by_contra hc
      have := endsW_single_last (Bool.of_not_eq_false hc) ht
      simp at this
    have hm1 : endsW (moneyNorm s) ['m'] = false := by
      by_contra hc
      have := endsW_single_last (Bool.of_not_eq_false hc) ht
      simp at this
    have hm2 : endsW (moneyNorm s) ['m', 'm'] = false := by
      by_contra hc
      have := endsW_single_last
        (endsW_pair_endsW_single _ _ _ (Bool.of_not_eq_false hc)) ht
      simp at this
    have hb : endsW (moneyNorm s) ['b'] = false := by
      by_contra hc
      have := endsW_single_last (Bool.of_not_eq_false hc) ht
      simp at this
    simp only [money_str_to_float, hi, hj, hv, hk, hm1, hm2, hb, ht]
    simp

/-- Witness for C2 at `"SGD16e2k"` (exponent span with a magnitude
suffix), `"SGD$16.9m"` (plain decimal with suffix), and `"16 k"` (suffix
letter not adjacent to the digit span). -/
theorem c2_money_suffix_multiplier_witness :
    money_str_to_float "SGD16e2k" none = some 1600000 ∧
    money_str_to_float "SGD$16.9m" none = some 16900000 ∧
    money_str_to_float "16 k" none = some 16000 := by
  refine ⟨?_, ?_, ?_⟩
  · have h := c2_money_suffix_multiplier "SGD16e2k" none 3 6 1600 1000
      (by decide) (by decide) (by decide) (Or.inl ⟨by decide, rfl⟩)
    rw [h]; decide
  · have h := c2_money_suffix_multiplier "SGD$16.9m" none 4 7 (169 / 10) 1000000
      (by decide) (by decide) (by decide) (Or.inr (Or.inl ⟨by decide, rfl⟩))
    rw [h]; decide
  · have h := c2_money_suffix_multiplier "16 k" none 0 1 16 1000
      (by decide) (by decide) (by decide) (Or.inl ⟨by decide, rfl⟩)
    rw [h]; decide

/-! ### Claim C5. -/

/-- Claim C5: `money_str_to_float` returns the caller-supplied default both
when the normalised string has no decimal digit and when the digit span
fails to parse as a float; it never raises (it is a total function into
`Option ℚ`). -/
theorem c5_money_default (s : String) (d : Option ℚ)
    (h : List.findIdx? Char.isDigit (moneyNorm s) = none
       ∨ lastDigitIdx (moneyNorm s) = none
       ∨ ∃ i j, List.findIdx? Char.isDigit (moneyNorm s) = some i
           ∧ lastDigitIdx (moneyNorm s) = some j
           ∧ pyFloat? (String.mk (((moneyNorm s).take (j + 1)).drop i)) = none) :
    money_str_to_float s d = d := by
  rcases h with h1 | h2 | ⟨i, j, hi, hj, hp⟩
  · cases h2 : lastDigitIdx (moneyNorm s) with
    | none => simp only [money_str_to_float, h1, h2]
    | some j => simp only [money_str_to_float, h1, h2]
  · cases h1 : List.findIdx? Char.isDigit (moneyNorm s) with
    | none => simp only [money_str_to_float, h1, h2]
    | some i => simp only [money_str_to_float, h1, h2]
  · simp only [money_str_to_float, hi, hj, hp]

/-- Witness for C5 at `""` (no digit) and `"16.9.0"` (digit span with two
decimal points, a float-parse failure). -/
theorem c5_money_default_witness :
    money_str_to_float "" (some 7) = some 7 ∧
    money_str_to_float "16.9.0" (some 7) = some 7 := by
  constructor
  · exact c5_money_default "" (some 7) (Or.inl (by decide))
  · exact c5_money_default "16.9.0" (some 7)
      (Or.inr (Or.inr ⟨0, 5, by decide, by decide, by decide⟩))

/-! ### Claim C6. -/

/-- Claim C6: `xml_get_text` is total — for every tree and slash-separated
field path it returns the text of the first matching descendant, and the
empty string (never a null, never an exception) both when no element
matches and when the matched element has no text. -/
theorem c6_xml_get_text_total (root : Element) (field : String) :
    (findPath root (splitSlash field) = none → xml_get_text root field = "") ∧
    (∀ e, findPath root (splitSlash field) = some e → e.text = none →
      xml_get_text root field = "") ∧
    (∀ e t, findPath root (splitSlash field) = some e → e.text = some t →
      xml_get_text root field = t) := by
  refine ⟨?_, ?_, ?_⟩
  · intro h
    simp only [xml_get_text, h]
  · intro e he ht
    simp only [xml_get_text, he, ht]
  · intro e t he ht
    simp only [xml_get_text, he, ht]

/-- A tree with no `y` element anywhere. -/
def c6TreeA : Element := .mk "r" none (elist [.mk "x" (some "t") .nil])

/-- A tree whose `a/b` match sits two levels down, under a wrapper that is
not part of the path — the search is over the whole subtree, not only the
direct children. -/
def c6TreeB : Element :=
  .mk "r" none (elist [.mk "w" none
    (elist [.mk "a" none (elist [.mk "b" (some "hello") .nil])])])

/-- Witness for C6: a missing path yields `""`, a nested match two levels
down is found with its text, and a matched element without text yields
`""`. -/
theorem c6_xml_get_text_total_witness :
    xml_get_text c6TreeA "y" = "" ∧
    xml_get_text c6TreeB "a/b" = "hello" ∧
    xml_get_text c6TreeB "w" = "" := by
  refine ⟨?_, ?_, ?_⟩
  · exact (c6_xml_get_text_total c6TreeA "y").1 rfl
  · exact (c6_xml_get_text_total c6TreeB "a/b").2.2
      (.mk "b" (some "hello") .nil) "hello" rfl rfl
  · exact (c6_xml_get_text_total c6TreeB "w").2.1
      (.mk "w" none (elist [.mk "a" none (elist [.mk "b" (some "hello") .nil])])) rfl rfl

/-! ### Form-1 construction facts shared by several claims. -/

/-- Inversion of a successful construction: the Part3/Transaction node was
absent (otherwise construction faults), and the state is exactly the one
`__init__` builds, with every cache slot `None`. -/
theorem mkForm1_ok_inv (tree : Element) (st : Form1State) (hc : mkForm1 tree = .ok st) :
    findPath tree part3Path = none ∧
    st = { xml := tree
           insider_title := "Director/CEO"
           is_notifying_raw := pyStrip (xml_get_text tree "Form1/Part1/notifyingAtApptTime")
           issuer_name_c := none
           issuer_type_c := none
           insider_name_c := none
           trade_date_c := none
           securities_before_c := none
           securities_after_c := none
           amt_consideration_c := none } := by
  unfold mkForm1 parse_part_3_securities at hc
  cases h3 : findPath tree part3Path with
  | none =>
    rw [h3] at hc
    simp only [Except.ok.injEq] at hc
    exact ⟨rfl, hc.symm⟩
  | some e =>
    rw [h3] at hc
    simp at hc

/-- Helpers for building concrete sample trees. -/
def nsData : String := "\x7bhttp://www.xfa.org/schema/xfa-data/1.0/\x7ddata"

def leafE (t txt : String) : Element := .mk t (some txt) .nil

def nodeE (t : String) (cs : List Element) : Element := .mk t none (elist cs)

/-- An appointment-time (Part II) filing: flag `"1"`, an appointment date,
a Part2/T1 totals block, and no Part3/Transaction node. -/
def apptTree : Element :=
  nodeE "xdp" [nodeE nsData [nodeE "SFA289" [nodeE "Form1" [
    nodeE "Part1" [leafE "notifyingAtApptTime" "1",
      nodeE "listedIssuer" [leafE "name" "Acme", leafE "type" "2"],
      leafE "nameDirector" "Jane"],
    nodeE "Part2" [leafE "dateAppointmentDirectorLI" "21 Jun 2013",
      nodeE "T1" [nodeE "ord" [nodeE "num" [leafE "tot" "1,000"]]]]]]]]

/-- The state `mkForm1` produces from `apptTree`. -/
def apptSt : Form1State :=
  { xml := apptTree
    insider_title := "Director/CEO"
    is_notifying_raw := "1"
    issuer_name_c := none
    issuer_type_c := none
    insider_name_c := none
    trade_date_c := none
    securities_before_c := none
    securities_after_c := none
    amt_consideration_c := none }

theorem mkForm1_apptTree : mkForm1 apptTree = .ok apptSt := rfl

/-! ### Claim C1. -/

/-- Claim C1: every successfully constructed Form-1 record whose
appointment-time flag is true has `amt_consideration() == 0`, has
`securities_after()` equal to `securities_before()` (same value and same
resulting state), and has `trade_date()` equal to the text of
`Form1/Part2/dateAppointmentDirectorLI`, verbatim. -/
theorem c1_appointment_time_record (tree : Element) (st : Form1State)
    (hc : mkForm1 tree = .ok st)
    (hflag : is_notifying_at_appt_time st = true) :
    (amt_consideration st).1 = 0 ∧
    securities_after st = securities_before st ∧
    (trade_date st).1 = xml_get_text tree "Form1/Part2/dateAppointmentDirectorLI" := by
  obtain ⟨h3, rfl⟩ := mkForm1_ok_inv tree st hc
  refine ⟨?_, ?_, ?_⟩
  · simp [amt_consideration, hflag]
  · simp [securities_after, hflag]
  · simp [trade_date, hflag]

/-- Witness for C1 on the concrete appointment-time filing `apptTree`:
the consideration is 0, before and after holdings agree (both read the
Part-II block, here ordinary shares 1000), and the trade date is the
appointment date text. -/
theorem c1_appointment_time_record_witness :
    (amt_consideration apptSt).1 = 0 ∧
    securities_after apptSt = securities_before apptSt ∧
    (trade_date apptSt).1 = "21 Jun 2013" ∧
    securities_before apptSt = .ok (some [(.ORDINARY_SHARES, 1000)],
      { apptSt with securities_before_c := some [(.ORDINARY_SHARES, 1000)] }) := by
  have h := c1_appointment_time_record apptTree apptSt mkForm1_apptTree (by decide)
  refine ⟨h.1, h.2.1, ?_, ?_⟩
  · rw [h.2.2]
    rfl
  · rfl

/-! ### Claim C4. -/

/-- Claim C4: the transaction-table of `__parse_part_3_securities` refers
to the undefined enumeration member `SecurityType.partition` (the Lean
`SecurityType` type, a faithful copy of the enumeration, has no such
constructor), so whenever the Part3/Transaction node is present the parse
— and with it Form-1 construction, which always invokes it — raises an
`AttributeError` while building the table, before any security field is
read. -/
theorem c4_partition_member_fault (tree : Element)
    (h : (findPath tree part3Path).isSome = true) :
    parse_part_3_securities tree = .error (.attributeError "partition") ∧
    mkForm1 tree = .error (.attributeError "partition") := by
  cases hfp : findPath tree part3Path with
  | none => rw [hfp] at h; simp at h
  | some e =>
    constructor
    · simp [parse_part_3_securities, hfp]
    · simp [mkForm1, parse_part_3_securities, hfp]

/-- A tree whose Part3/Transaction node is present but entirely empty: the
fault fires even though there is no security field at all to read. -/
def c4Tree : Element :=
  nodeE "xdp" [nodeE nsData [nodeE "SFA289" [nodeE "Form1" [
    nodeE "Part3" [nodeE "Transaction" []]]]]]

/-- Witness for C4 at `c4Tree`. -/
theorem c4_partition_member_fault_witness :
    parse_part_3_securities c4Tree = .error (.attributeError "partition") ∧
    mkForm1 c4Tree = .error (.attributeError "partition") :=
  c4_partition_member_fault c4Tree rfl

/-! ### Claim C3 (code bug). -/

/-- A transaction-mode (Part III) filing: flag `"0"` and a populated
Part3/Transaction block with before/after ordinary-share counts. -/
def c3Tree : Element :=
  nodeE "xdp" [nodeE nsData [nodeE "SFA289" [nodeE "Form1" [
    nodeE "Part1" [leafE "notifyingAtApptTime" "0"],
    nodeE "Part3" [nodeE "Transaction" [
      leafE "dateAquisition" "01 Feb 2020",
      leafE "amtConsideration" "SGD$16.9m",
      nodeE "T1Ord" [
        nodeE "before" [nodeE "num" [leafE "tot" "1,000"]],
        nodeE "after" [nodeE "num" [leafE "tot" "2,000"]]]]]]]]]

/-- Claim C3 names the behaviour the spec intends for a populated
section-III block; the code instead faults on `SecurityType.partition`
during construction, so no such record exists. This theorem evaluates the
code at the failing input: a Form-1 filing with appointment-time flag
false and a fully populated transaction block cannot be constructed at
all. -/
theorem c3_part3_populated_construction_faults :
    mkForm1 c3Tree = .error (.attributeError "partition") := rfl

/-! ### Claim C10. -/

/-- Claim C10: `is_notifying_at_appt_time()` is true exactly when the
stripped text of `Form1/Part1/notifyingAtApptTime` equals `"1"`; an absent
or empty field gives false (transaction mode). -/
theorem c10_notifying_flag (tree : Element) (st : Form1State)
    (hc : mkForm1 tree = .ok st) :
    (is_notifying_at_appt_time st = true ↔
      pyStrip (xml_get_text tree "Form1/Part1/notifyingAtApptTime") = "1") ∧
    (xml_get_text tree "Form1/Part1/notifyingAtApptTime" = "" →
      is_notifying_at_appt_time st = false) := by
  obtain ⟨h3, rfl⟩ := mkForm1_ok_inv tree st hc
  constructor
  · simp [is_notifying_at_appt_time]
  · intro h
    rw [is_notifying_at_appt_time]
    simp only [h]
    decide

/-- A filing whose flag field reads `" 1 "` with surrounding whitespace,
and no Part3 node. -/
def c10TreeA : Element :=
  nodeE "xdp" [nodeE nsData [nodeE "SFA289" [nodeE "Form1" [
    nodeE "Part1" [leafE "notifyingAtApptTime" " 1 "]]]]]

/-- The state `mkForm1` produces from `c10TreeA`: the stored flag text is
already stripped to `"1"`. -/
def c10StA : Form1State :=
  { xml := c10TreeA
    insider_title := "Director/CEO"
    is_notifying_raw := "1"
    issuer_name_c := none
    issuer_type_c := none
    insider_name_c := none
    trade_date_c := none
    securities_before_c := none
    securities_after_c := none
    amt_consideration_c := none }

/-- A filing with no flag field at all. -/
def c10TreeB : Element :=
  nodeE "xdp" [nodeE nsData [nodeE "SFA289" [nodeE "Form1" [nodeE "Part1" []]]]]

/-- The state `mkForm1` produces from `c10TreeB`. -/
def c10StB : Form1State :=
  { xml := c10TreeB
    insider_title := "Director/CEO"
    is_notifying_raw := ""
    issuer_name_c := none
    issuer_type_c := none
    insider_name_c := none
    trade_date_c := none
    securities_before_c := none
    securities_after_c := none
    amt_consideration_c := none }

/-- Witness for C10: whitespace around `"1"` still gives true; an absent
field gives false. -/
theorem c10_notifying_flag_witness :
    is_notifying_at_appt_time c10StA = true ∧ is_notifying_at_appt_time c10StB = false := by
  have hA : mkForm1 c10TreeA = .ok c10StA := rfl
  have hB : mkForm1 c10TreeB = .ok c10StB := rfl
  constructor
  · exact (c10_notifying_flag c10TreeA c10StA hA).1.mpr rfl
  · exact (c10_notifying_flag c10TreeB c10StB hB).2 rfl

/-! ### Claim C7. -/

/-- If some tag of the table has non-empty text that is not a valid
comma-stripped integer, the tag loop raises (returns an error), whichever
position the bad tag occupies. -/
theorem parseTags_error_of_bad (node : Element) :
    ∀ tags : List (SecurityType × String),
    (∃ p ∈ tags, xml_get_text node p.2 ≠ "" ∧
      pyInt? (removeCommas (xml_get_text node p.2)) = none) →
    ∃ e, parseTags node tags = .error e := by
  intro tags
  induction tags with
  | nil =>
    rintro ⟨p, hp, _⟩
    simp at hp
  | cons hd tl ih =>
    rintro ⟨p, hp, hne, hpi⟩
    obtain ⟨st0, sub0⟩ := hd
    rcases List.mem_cons.mp hp with heq | hmem
    · subst heq
      refine ⟨.valueError (removeCommas (xml_get_text node sub0)), ?_⟩
      simp only [parseTags]
      rw [if_neg hne, hpi]
    · obtain ⟨e, he⟩ := ih ⟨p, hmem, hne, hpi⟩
      by_cases h0 : xml_get_text node sub0 = ""
      · exact ⟨e, by simp only [parseTags]; rw [if_pos h0]; exact he⟩
      · cases hint : pyInt? (removeCommas (xml_get_text node sub0)) with
        | none =>
          refine ⟨.valueError (removeCommas (xml_get_text node sub0)), ?_⟩
          simp only [parseTags]
          rw [if_neg h0, hint]
        | some n =>
          refine ⟨e, ?_⟩
          simp only [parseTags]
          rw [if_neg h0, hint, he]
          rfl

/-- Claim C7: when the Part2/T1 node is present and some security-count
sub-field has non-empty text that is not a plain comma-stripped integer,
`__parse_part_2_securities` raises a typed error (`ValueError`) that
propagates to the caller — it neither omits the field nor substitutes a
default, unlike money parsing. -/
theorem c7_count_error_propagates (root node : Element)
    (hn : findPath root part2Path = some node)
    (hbad : ∃ p ∈ part2Tags, xml_get_text node p.2 ≠ "" ∧
      pyInt? (removeCommas (xml_get_text node p.2)) = none) :
    ∃ e, parse_part_2_securities root = .error e := by
  obtain ⟨e, he⟩ := parseTags_error_of_bad node part2Tags hbad
  refine ⟨e, ?_⟩
  simp only [parse_part_2_securities]
  rw [hn]
  show Except.map some (parseTags node part2Tags) = .error e
  rw [he]
  rfl

/-- A tree whose Part2/T1 ordinary-shares total reads `"12x"`. -/
def c7Tree : Element :=
  nodeE "xdp" [nodeE nsData [nodeE "SFA289" [nodeE "Form1" [
    nodeE "Part2" [nodeE "T1" [nodeE "ord" [nodeE "num" [leafE "tot" "12x"]]]]]]]]

/-- The Part2/T1 node inside `c7Tree`. -/
def c7Node : Element :=
  nodeE "T1" [nodeE "ord" [nodeE "num" [leafE "tot" "12x"]]]

/-- Witness for C7: the malformed count `"12x"` makes the Part-II security
parse fail with an error. -/
theorem c7_count_error_propagates_witness :
    ∃ e, parse_part_2_securities c7Tree = .error e := by
  have htext : xml_get_text c7Node "ord/num/tot" = "12x" := rfl
  refine c7_count_error_propagates c7Tree c7Node rfl
    ⟨(.ORDINARY_SHARES, "ord/num/tot"), by simp [part2Tags], ?_, ?_⟩
  · rw [htext]; decide
  · rw [htext]; decide

/-! ### Claim C8 (corrected). -/

/-- A transaction-mode filing with a Part3/Transaction node present. -/
def c8BadTree : Element :=
  nodeE "xdp" [nodeE nsData [nodeE "SFA289" [nodeE "Form1" [
    nodeE "Part1" [leafE "notifyingAtApptTime" "0"],
    nodeE "Part3" [nodeE "Transaction" [leafE "dateAquisition" "02 Mar 2021"]]]]]]

/-- Counterexample to claim C8 as stated: construction is *not* free of
derived-field computation. `__init__` eagerly invokes the part-3 securities
parse, observably so: on `c8BadTree` (Part3/Transaction present)
construction itself faults inside that computation instead of producing a
record with untouched caches. -/
theorem c8_constructor_computes_cex :
    mkForm1 c8BadTree = .error (.attributeError "partition") := rfl

/-- Amended claim C8: construction eagerly runs the part-3 securities
computation and assigns its pair to the two securities caches (so a
construction that succeeds had part-3 absent and both caches `None`);
every *other* memoized derived field (issuer name, issuer type, insider
name, trade date, amount of consideration) is still in the
not-yet-computed state right after construction and is computed and cached
on the first invocation of its accessor. -/
theorem c8_construction_state (tree : Element) (st : Form1State)
    (hc : mkForm1 tree = .ok st) :
    parse_part_3_securities tree = .ok (none, none) ∧
    st.issuer_name_c = none ∧ st.issuer_type_c = none ∧ st.insider_name_c = none ∧
    st.trade_date_c = none ∧ st.amt_consideration_c = none ∧
    st.securities_before_c = none ∧ st.securities_after_c = none ∧
    (issuer_name st).2.issuer_name_c = some (issuer_name st).1 ∧
    (issuer_type st).2.issuer_type_c = some (xml_get_text tree "Form1/Part1/listedIssuer/type") ∧
    (insider_name st).2.insider_name_c = some (insider_name st).1 ∧
    (trade_date st).2.trade_date_c = some (trade_date st).1 ∧
    (amt_consideration st).2.amt_consideration_c = some (amt_consideration st).1 := by
  obtain ⟨h3, rfl⟩ := mkForm1_ok_inv tree st hc
  refine ⟨by simp [parse_part_3_securities, h3], rfl, rfl, rfl, rfl, rfl, rfl, rfl,
    ?_, ?_, ?_, ?_, ?_⟩
  · simp [issuer_name]
  · simp [issuer_type]
  · simp [insider_name]
  · by_cases hn : is_notifying_at_appt_time
      { xml := tree
        insider_title := "Director/CEO"
        is_notifying_raw := pyStrip (xml_get_text tree "Form1/Part1/notifyingAtApptTime")
        issuer_name_c := none
        issuer_type_c := none
        insider_name_c := none
        trade_date_c := none
        securities_before_c := none
        securities_after_c := none
        amt_consideration_c := none } = true
    · simp [trade_date, hn]
    · simp [trade_date, hn]
  · by_cases hn : is_notifying_at_appt_time
      { xml := tree
        insider_title := "Director/CEO"
        is_notifying_raw := pyStrip (xml_get_text tree "Form1/Part1/notifyingAtApptTime")
        issuer_name_c := none
        issuer_type_c := none
        insider_name_c := none
        trade_date_c := none
        securities_before_c := none
        securities_after_c := none
        amt_consideration_c := none } = true
    · simp [amt_consideration, hn]
    · simp [amt_consideration, hn]

/-- The smallest successfully-constructible tree: no Part3, no fields. -/
def c8OkTree : Element := .mk "r" none .nil

/-- The state `mkForm1` produces from `c8OkTree`. -/
def c8OkSt : Form1State :=
  { xml := c8OkTree
    insider_title := "Director/CEO"
    is_notifying_raw := ""
    issuer_name_c := none
    issuer_type_c := none
    insider_name_c := none
    trade_date_c := none
    securities_before_c := none
    securities_after_c := none
    amt_consideration_c := none }

/-- Witness for the amended C8 at `c8OkTree`. -/
theorem c8_construction_state_witness :
    parse_part_3_securities c8OkTree = .ok (none, none) ∧
    c8OkSt.issuer_name_c = none ∧ c8OkSt.issuer_type_c = none ∧ c8OkSt.insider_name_c = none ∧
    c8OkSt.trade_date_c = none ∧ c8OkSt.amt_consideration_c = none ∧
    c8OkSt.securities_before_c = none ∧ c8OkSt.securities_after_c = none ∧
    (issuer_name c8OkSt).2.issuer_name_c = some (issuer_name c8OkSt).1 ∧
    (issuer_type c8OkSt).2.issuer_type_c =
      some (xml_get_text c8OkTree "Form1/Part1/listedIssuer/type") ∧
    (insider_name c8OkSt).2.insider_name_c = some (insider_name c8OkSt).1 ∧
    (trade_date c8OkSt).2.trade_date_c = some (trade_date c8OkSt).1 ∧
    (amt_consideration c8OkSt).2.amt_consideration_c =
      some (amt_consideration c8OkSt).1 :=
  c8_construction_state c8OkTree c8OkSt rfl

/-! ### Claim C9. -/

/-- After a successful `securities_before` call, repeating the call on the
resulting state returns the same value and state; the call also leaves the
after-cache and the flag text untouched. -/
theorem securities_before_ok_inv (st : Form1State) (v : Option HoldingMap) (s1 : Form1State)
    (h : securities_before st = .ok (v, s1)) :
    securities_before s1 = .ok (v, s1) ∧
    s1.securities_after_c = st.securities_after_c ∧
    s1.is_notifying_raw = st.is_notifying_raw := by
  cases hc : st.securities_before_c with
  | some m =>
    simp only [securities_before, hc, Except.ok.injEq, Prod.mk.injEq] at h
    obtain ⟨h1, h2⟩ := h
    subst h1
    subst h2
    exact ⟨by simp only [securities_before, hc], rfl, rfl⟩
  | none =>
    by_cases hn : is_notifying_at_appt_time st = true
    · cases hp : parse_part_2_securities st.xml with
      | error e =>
        simp only [securities_before, hc, hn, if_true, hp] at h
        simp at h
      | ok r =>
        simp only [securities_before, hc, hn, if_true, hp, Except.ok.injEq,
          Prod.mk.injEq] at h
        obtain ⟨h1, h2⟩ := h
        subst h1
        subst h2
        refine ⟨?_, rfl, rfl⟩
        cases r with
        | some m => rfl
        | none =>
          have hn' : is_notifying_at_appt_time { st with securities_before_c := none }
              = true := hn
          simp only [securities_before]
          rw [if_pos hn']
          have hx : ({ st with securities_before_c := none } : Form1State).xml = st.xml := rfl
          rw [hx, hp]
    · simp only [securities_before, hc] at h
      rw [if_neg hn] at h
      simp only [Except.ok.injEq, Prod.mk.injEq] at h
      obtain ⟨h1, h2⟩ := h
      subst h1
      subst h2
      refine ⟨?_, rfl, rfl⟩
      simp only [securities_before, hc]
      rw [if_neg hn]

/-- Claim C9: on any form state, each accessor invoked twice in succession
returns the same value both times; for the fallible securities accessors,
a successful first call repeated on the updated state returns the very
same result. -/
theorem c9_accessors_idempotent (st : Form1State) :
    (issuer_name (issuer_name st).2).1 = (issuer_name st).1 ∧
    (issuer_type (issuer_type st).2).1 = (issuer_type st).1 ∧
    (insider_name (insider_name st).2).1 = (insider_name st).1 ∧
    (trade_date (trade_date st).2).1 = (trade_date st).1 ∧
    (amt_consideration (amt_consideration st).2).1 = (amt_consideration st).1 ∧
    (∀ v s1, securities_before st = .ok (v, s1) → securities_before s1 = .ok (v, s1)) ∧
    (∀ v s1, securities_after st = .ok (v, s1) → securities_after s1 = .ok (v, s1)) := by
  refine ⟨?_, ?_, ?_, ?_, ?_, ?_, ?_⟩
  · cases hc : st.issuer_name_c with
    | some m => simp [issuer_name, hc]
    | none => simp [issuer_name, hc]
  · cases hc : st.issuer_type_c with
    | some m => simp [issuer_type, hc]
    | none => simp [issuer_type, hc]
  · cases hc : st.insider_name_c with
    | some m => simp [insider_name, hc]
    | none => simp [insider_name, hc]
  · cases hc : st.trade_date_c with
    | some m => simp [trade_date, hc]
    | none => simp [trade_date, hc]
  · cases hc : st.amt_consideration_c with
    | some m => simp [amt_consideration, hc]
    | none =>
      by_cases hn : is_notifying_at_appt_time st = true
      · simp [amt_consideration, hc, hn]
      · simp [amt_consideration, hc, hn]
  · intro v s1 h
    exact (securities_before_ok_inv st v s1 h).1
  · intro v s1 h
    cases hc : st.securities_after_c with
    | some m =>
      simp only [securities_after, hc, Except.ok.injEq, Prod.mk.injEq] at h
      obtain ⟨rfl, rfl⟩ := h
      simp only [securities_after, hc]
    | none =>
      by_cases hn : is_notifying_at_appt_time st = true
      · simp only [securities_after, hc] at h
        rw [if_pos hn] at h
        obtain ⟨h1, hafter, hraw⟩ := securities_before_ok_inv st v s1 h
        have hn' : is_notifying_at_appt_time s1 = true := by
          rw [is_notifying_at_appt_time] at hn ⊢
          rw [hraw]
          exact hn
        simp only [securities_after, hafter, hc]
        rw [if_pos hn']
        exact h1
      · simp only [securities_after, hc] at h
        rw [if_neg hn] at h
        simp only [Except.ok.injEq, Prod.mk.injEq] at h
        obtain ⟨h1, h2⟩ := h
        subst h1
        subst h2
        simp only [securities_after, hc]
        rw [if_neg hn]

/-- A state with every cache filled, for exercising the idempotence
theorem at a concrete input. -/
def c9St : Form1State :=
  { xml := .mk "r" none .nil
    insider_title := "Director/CEO"
    is_notifying_raw := "0"
    issuer_name_c := some "Acme"
    issuer_type_c := some "2"
    insider_name_c := some "Jane"
    trade_date_c := some "01 Jan 2020"
    securities_before_c := some [(.ORDINARY_SHARES, 5)]
    securities_after_c := some [(.ORDINARY_SHARES, 6)]
    amt_consideration_c := some 100 }

/-- Witness for C9 at `c9St`. -/
theorem c9_accessors_idempotent_witness :
    securities_before c9St = .ok (some [(.ORDINARY_SHARES, 5)], c9St) ∧
    securities_after c9St = .ok (some [(.ORDINARY_SHARES, 6)], c9St) ∧
    (issuer_name (issuer_name c9St).2).1 = (issuer_name c9St).1 := by
  have h := c9_accessors_idempotent c9St
  exact ⟨h.2.2.2.2.2.1 _ _ rfl, h.2.2.2.2.2.2 _ _ rfl, h.1⟩

end SGX
